import Mathlib

/-!
Verification development for the research_assistant repository.

The TypeScript source is shallowly embedded: pure functions become Lean
functions, JavaScript number arithmetic on relevance scores is modelled
with `ℚ` (the scores in play are small decimal literals), JavaScript's
falsy-coalescing `a || b` on strings/numbers is modelled by explicit
helpers, and network calls are modelled by environment records carrying
each fetch's outcome (`Except Unit` mirrors promise rejection).
-/

/-- JS `a || b` for an optional string `a`: `undefined` and `""` are falsy. -/
def jsStr (a : Option String) (b : String) : String :=
  match a with
  | none => b
  | some s => if s.isEmpty then b else s

/-- JS truthiness filter for an optional string: `some ""` becomes `none`. -/
def truthyStr (a : Option String) : Option String :=
  match a with
  | none => none
  | some s => if s.isEmpty then none else some s

/-- JS `a || b` for an optional rational `a`: `undefined` and `0` are falsy. -/
def jsOrQ (a : Option ℚ) (b : ℚ) : ℚ :=
  match a with
  | none => b
  | some q => if q = 0 then b else q

/-- JS `a || b` for an optional integer `a`: `undefined` and `0` are falsy. -/
def jsOrI (a : Option Int) (b : Option Int) : Option Int :=
  match a with
  | none => b
  | some n => if n = 0 then b else some n

/-- Drop the literal `lit` from the front of `s`; `none` if `s` does not
start with `lit`. -/
def dropLit : List Char → List Char → Option (List Char)
  | [], rest => some rest
  | _ :: _, [] => none
  | a :: as, b :: bs => if a = b then dropLit as bs else none

/-- Does the character list `pat` occur at the start of `s`? -/
def hasPrefixCL : List Char → List Char → Bool
  | [], _ => true
  | _ :: _, [] => false
  | a :: as, b :: bs => a = b && hasPrefixCL as bs

/-- Does `pat` occur anywhere inside `s`?  Embeds JS `String.includes`. -/
def hasSubCL (pat : List Char) : List Char → Bool
  | [] => hasPrefixCL pat []
  | s@(_ :: t) => hasPrefixCL pat s || hasSubCL pat t

/-- JS `s.includes(pat)`. -/
def strIncludes (s pat : String) : Bool := hasSubCL pat.data s.data

/-- Parse a decimal digit prefix; `none` when there is no leading digit. -/
def digitsValue (cs : List Char) : Option Nat :=
  let ds := cs.takeWhile (·.isDigit)
  if ds.isEmpty then none
  else some (ds.foldl (fun a c => a * 10 + (c.toNat - 48)) 0)

/-- JS `parseInt(s, 10)`: skip leading whitespace, optional sign, then a
decimal digit prefix; `none` models `NaN`. -/
def parseIntJS (s : String) : Option Int :=
  let cs := s.data.dropWhile (·.isWhitespace)
  match cs with
  | '-' :: rest => (digitsValue rest).map (fun n => -(n : Int))
  | '+' :: rest => (digitsValue rest).map (fun n => (n : Int))
  | _ => (digitsValue cs).map (fun n => (n : Int))

/-- Characters `new URL(...).hostname` stops at (path, query, fragment,
port).  Userinfo is not modelled; no URL built by this codebase has one. -/
def isHostDelim (c : Char) : Bool := c = '/' || c = '?' || c = '#' || c = ':'

/-- The characters after the `http(s)://` scheme; `none` when the scheme
is missing. -/
def schemeRest (u : String) : Option (List Char) :=
  match dropLit "https://".data u.data with
  | some r => some r
  | none => dropLit "http://".data u.data

/-- `new URL(u).hostname` for http(s) URLs.  A string without an http(s)
scheme or with an empty host makes the constructor throw (`.error`).
Host lowercasing is omitted: every URL in this codebase is lowercase. -/
def urlHostname (u : String) : Except Unit String :=
  match schemeRest u with
  | none => .error ()
  | some rest =>
    let host := rest.takeWhile (fun c => !isHostDelim c)
    if host.isEmpty then .error () else .ok ⟨host⟩

/-- Upper-case hex digit for `n < 16`. -/
def hexDigit (n : Nat) : Char :=
  if n < 10 then Char.ofNat (48 + n) else Char.ofNat (55 + n)

/-- Two-digit upper-case hex rendering of a byte. -/
def hexByte (n : Nat) : String := ⟨[hexDigit (n / 16), hexDigit (n % 16)]⟩

/-- Characters `encodeURIComponent` leaves unescaped. -/
def isUriUnescaped (c : Char) : Bool :=
  c.isAlphanum || c = '-' || c = '_' || c = '.' || c = '!' || c = '~' ||
    c = '*' || c = '\'' || c = '(' || c = ')'

/-- JS `encodeURIComponent`: escape every non-unreserved character as
percent-encoded UTF-8 bytes. -/
def encodeURIComponent (s : String) : String :=
  String.join (s.data.map (fun c =>
    if isUriUnescaped c then String.singleton c
    else String.join (((String.singleton c).toUTF8.toList.map
      (fun b => "%" ++ hexByte b.toNat)))))

theorem takeWhile_append_stop {α} (p : α → Bool) :
    ∀ (l₁ : List α) (c : α) (l₂ : List α), (∀ x ∈ l₁, p x = true) → p c = false →
      (l₁ ++ c :: l₂).takeWhile p = l₁ := by
  intro l₁
  induction l₁ with
  | nil => intro c l₂ _ hc; simp [List.takeWhile, hc]
  | cons a as ih =>
    intro c l₂ h hc
    have ha : p a = true := h a (by simp)
    simp [List.takeWhile, ha, ih c l₂ (fun x hx => h x (by simp [hx])) hc]

theorem dropWhile_append_stop {α} (p : α → Bool) :
    ∀ (l₁ : List α) (c : α) (l₂ : List α), (∀ x ∈ l₁, p x = true) → p c = false →
      (l₁ ++ c :: l₂).dropWhile p = c :: l₂ := by
  intro l₁
  induction l₁ with
  | nil => intro c l₂ _ hc; simp [List.dropWhile, hc]
  | cons a as ih =>
    intro c l₂ h hc
    have ha : p a = true := h a (by simp)
    simp [List.dropWhile, ha, ih c l₂ (fun x hx => h x (by simp [hx])) hc]

/-- The web-search record (`SearchResult` in `search-service.ts` and the
research route). -/
structure SearchResult where
  title : String
  url : String
  snippet : String
  domain : String
  score : ℚ
  published_date : Option String := none
  author : Option String := none
deriving DecidableEq, Repr

namespace SearchService

/-- The composite deduplication key from `removeDuplicates`:
`` `${result.title}-${result.url}` ``. -/
def dedupKey (r : SearchResult) : String := r.title ++ "-" ++ r.url

/-- Worker for `removeDuplicates`: `seen` is the set of keys already kept. -/
def removeDuplicatesAux (seen : List String) : List SearchResult → List SearchResult
  | [] => []
  | r :: rest =>
    let key := dedupKey r
    if key ∈ seen then removeDuplicatesAux seen rest
    else r :: removeDuplicatesAux (key :: seen) rest

/-- `SearchService.removeDuplicates`: filter keeping the first occurrence of
each composite `title-url` key. -/
def removeDuplicates (results : List SearchResult) : List SearchResult :=
  removeDuplicatesAux [] results

theorem removeDuplicatesAux_congr :
    ∀ (l : List SearchResult) (seen seen' : List String),
      (∀ s, s ∈ seen ↔ s ∈ seen') →
      removeDuplicatesAux seen l = removeDuplicatesAux seen' l := by
  intro l
  induction l with
  | nil => intro seen seen' _; rfl
  | cons r rest ih =>
    intro seen seen' h
    by_cases hs : dedupKey r ∈ seen
    · have hs' : dedupKey r ∈ seen' := (h _).mp hs
      simp [removeDuplicatesAux, hs, hs', ih seen seen' h]
    · have hs' : dedupKey r ∉ seen' := fun hc => hs ((h _).mpr hc)
      have hext : ∀ s, s ∈ dedupKey r :: seen ↔ s ∈ dedupKey r :: seen' := by
        intro s; simp [List.mem_cons, h s]
      simp [removeDuplicatesAux, hs, hs', ih _ _ hext]

theorem removeDuplicatesAux_filter_ne (k : String) :
    ∀ (l : List SearchResult) (seen : List String),
      removeDuplicatesAux (k :: seen) l =
        removeDuplicatesAux seen (l.filter (fun r => dedupKey r ≠ k)) := by
  intro l
  induction l with
  | nil => intro seen; rfl
  | cons r rest ih =>
    intro seen
    by_cases hk : dedupKey r = k
    · have hmem : dedupKey r ∈ k :: seen := by simp [hk]
      rw [removeDuplicatesAux]
      simp only [hmem, if_true, List.filter_cons]
      simp [hk, ih]
    · by_cases hs : dedupKey r ∈ seen
      · have hmem : dedupKey r ∈ k :: seen := by simp [hs]
        rw [removeDuplicatesAux]
        simp only [hmem, if_true, List.filter_cons]
        simp [hk, removeDuplicatesAux, hs, ih]
      · have hmem : dedupKey r ∉ k :: seen := by simp [hk, hs]
        rw [removeDuplicatesAux]
        simp only [hmem, if_false, List.filter_cons]
        have hswap : removeDuplicatesAux (dedupKey r :: k :: seen) rest =
            removeDuplicatesAux (k :: dedupKey r :: seen) rest := by
          apply removeDuplicatesAux_congr
          intro s; constructor <;> (intro h; simp [List.mem_cons] at h ⊢; tauto)
        simp [hk, removeDuplicatesAux, hs, hswap, ih]

theorem removeDuplicates_cons_key (r : SearchResult) (rest : List SearchResult) :
    removeDuplicates (r :: rest) =
      r :: removeDuplicates (rest.filter (fun x => dedupKey x ≠ dedupKey r)) := by
  show removeDuplicatesAux [] (r :: rest) = _
  rw [removeDuplicatesAux]
  simp [removeDuplicatesAux_filter_ne, removeDuplicates]

theorem removeDuplicatesAux_idem :
    ∀ (l : List SearchResult) (seen : List String),
      removeDuplicatesAux seen (removeDuplicatesAux seen l) =
        removeDuplicatesAux seen l := by
  intro l
  induction l with
  | nil => intro seen; rfl
  | cons r rest ih =>
    intro seen
    by_cases hs : dedupKey r ∈ seen
    · simp [removeDuplicatesAux, hs, ih]
    · simp only [removeDuplicatesAux, hs, if_false, if_neg hs]
      simp [removeDuplicatesAux, List.mem_cons, ih]

/-- `scrapeWebContent`'s successful outcome (title/content/snippet pulled
out of the fetched HTML); `none` models a failed fetch, a missing body or
a thrown error. -/
structure ScrapedContent where
  title : String
  content : String
  snippet : String
deriving DecidableEq, Repr

/-- One element of `data.data?.webPages?.value || data.results || []` in a
LangSearch web-search response. -/
structure LangSearchItem where
  name : Option String := none
  title : Option String := none
  url : Option String := none
  snippet : Option String := none
  content : Option String := none
  datePublished : Option String := none
  published_date : Option String := none

/-- A LangSearch web-search HTTP response: `ok` is `response.ok`, `code`
is `data.code`, `items` the extracted result array. -/
structure LangSearchResp where
  ok : Bool
  code : Option Int := none
  items : List LangSearchItem := []

/-- One element of `data.web?.results || []` in a Brave response. -/
structure BraveItem where
  title : String
  url : String
  description : Option String := none
  age : Option String := none

/-- A Brave search HTTP response. -/
structure BraveResp where
  ok : Bool
  items : List BraveItem := []

/-- One element of `data.RelatedTopics` in a DuckDuckGo response. -/
structure DdgTopic where
  firstURL : Option String := none
  text : Option String := none

/-- A DuckDuckGo instant-answer HTTP response. -/
structure DdgResp where
  ok : Bool
  abstractText : Option String := none
  heading : Option String := none
  abstractURL : Option String := none
  abstractSource : Option String := none
  relatedTopics : Option (List DdgTopic) := none

/-- A Wikipedia page-summary HTTP response (`content_urls?.desktop?.page`
flattened to `pageUrl`). -/
structure WikiResp where
  ok : Bool
  title : Option String := none
  pageUrl : Option String := none
  extract : Option String := none

/-- One `<entry>` of the arXiv feed as the regex scan in
`searchWithArXiv` extracts it: `none` means the respective regex did not
match. -/
structure ArxivFeedEntry where
  title : Option String := none
  summary : Option String := none
  id : Option String := none
  published : Option String := none
  authors : Option (List String) := none

/-- An arXiv query HTTP response (entries pre-extracted from the Atom
text; the regex scan itself operates on network data). -/
structure ArxivResp where
  ok : Bool
  entries : List ArxivFeedEntry := []

/-- `summaryData.result[id]` of a PubMed esummary response; `authors` is
the list of `a.name` fields. -/
structure PubmedArticle where
  title : Option String := none
  abstract : Option String := none
  pubdate : Option String := none
  authors : Option (List String) := none

/-- A PubMed esummary HTTP response for one id. -/
structure PubmedSummaryResp where
  ok : Bool
  article : Option PubmedArticle := none

/-- A PubMed esearch HTTP response (`data.esearchresult?.idlist`). -/
structure PubmedSearchResp where
  ok : Bool
  idlist : Option (List String) := none

/-- The request-scoped environment of a `SearchService` call: configured
keys, the outcome of each provider fetch (`.error` models a rejected
promise), the scraping oracle used by enrichment, and the wall clock
(`new Date().toISOString()` / `.getFullYear()`). -/
structure SearchEnv where
  langSearchKey : Bool
  braveKey : Bool
  langSearchFetch : Except Unit LangSearchResp
  braveFetch : Except Unit BraveResp
  ddgFetch : Except Unit DdgResp
  wikiFetch : Except Unit WikiResp
  arxivFetch : Except Unit ArxivResp
  pubmedSearchFetch : Except Unit PubmedSearchResp
  pubmedSummaryFetch : String → Except Unit PubmedSummaryResp
  scrape : String → Option ScrapedContent
  nowIso : String
  currentYear : Nat

/-- A `try { ... } catch { return [] }` body: rejected promises collapse
to the empty result list. -/
def tryCatchList (body : Except Unit (List SearchResult)) : List SearchResult :=
  match body with
  | .ok l => l
  | .error _ => []

/-- `data.code && data.code !== 200`: a truthy code different from 200. -/
def badApiCode (code : Option Int) : Bool :=
  match code with
  | some c => c ≠ 0 && c ≠ 200
  | none => false

/-- `searchWithLangSearch` (the `count`, `freshness` and `summary`
request parameters only shape the outgoing request, which the environment
already answers).  Every failure path returns `[]`. -/
def searchWithLangSearch (env : SearchEnv) (query : String) (count : Nat) :
    List SearchResult :=
  tryCatchList (do
    let resp ← env.langSearchFetch
    if !resp.ok then pure []
    else if badApiCode resp.code then pure []
    else
      resp.items.enum.mapM (fun ir => do
        let item := ir.2
        let domain ←
          match truthyStr item.url with
          | some u => urlHostname u
          | none => pure ""
        pure
          { title := jsStr item.name (jsStr item.title "Untitled")
            url := jsStr item.url ""
            snippet :=
              match truthyStr item.snippet with
              | some s => s
              | none =>
                match item.content with
                | some c => c.take 200 ++ "..."
                | none => "undefined..."
            domain
            score := 1 - (ir.1 : ℚ) * 0.05
            published_date :=
              some (jsStr item.datePublished (jsStr item.published_date env.nowIso))
            author := some "Unknown" }))

/-- `searchWithBrave`: every failure path returns `[]`. -/
def searchWithBrave (env : SearchEnv) (query : String) (count : Int) :
    List SearchResult :=
  tryCatchList (do
    let resp ← env.braveFetch
    if !resp.ok then pure []
    else
      resp.items.enum.mapM (fun ir => do
        let host ← urlHostname ir.2.url
        pure
          { title := ir.2.title
            url := ir.2.url
            snippet := jsStr ir.2.description ""
            domain := host
            score := 0.8 - (ir.1 : ℚ) * 0.05
            published_date := some (jsStr ir.2.age env.nowIso)
            author := some "Unknown" }))

/-- `searchWithDuckDuckGo`.  The abstract result's `domain` is
`data.AbstractSource || 'duckduckgo.com'` — a source name, not the url
host. -/
def searchWithDuckDuckGo (env : SearchEnv) (query : String) : List SearchResult :=
  tryCatchList (do
    let resp ← env.ddgFetch
    if !resp.ok then pure []
    else do
      let abstractPart : List SearchResult :=
        match truthyStr resp.abstractText with
        | some abs =>
          [{ title := jsStr resp.heading query
             url := jsStr resp.abstractURL
               ("https://duckduckgo.com/?q=" ++ encodeURIComponent query)
             snippet := abs
             domain := jsStr resp.abstractSource "duckduckgo.com"
             score := 0.9
             published_date := some env.nowIso
             author := some (jsStr resp.abstractSource "DuckDuckGo") }]
        | none => []
      let topicsPart ←
        match resp.relatedTopics with
        | some topics => do
          let opts ← (topics.take 3).enum.mapM (fun it =>
            match truthyStr it.2.firstURL, truthyStr it.2.text with
            | some u, some tx => do
              let host ← urlHostname u
              pure (some
                { title := jsStr (tx.splitOn " - ").head? query
                  url := u
                  snippet := tx
                  domain := host
                  score := 0.8 - (it.1 : ℚ) * 0.1
                  published_date := some env.nowIso
                  author := some "DuckDuckGo" })
            | _, _ => pure (none : Option SearchResult))
          pure opts.reduceOption
        | none => pure []
      pure (abstractPart ++ topicsPart))

/-- `searchWithWikipedia`: a single result with the hardcoded domain
`wikipedia.org`. -/
def searchWithWikipedia (env : SearchEnv) (query : String) : List SearchResult :=
  tryCatchList (do
    let resp ← env.wikiFetch
    if !resp.ok then pure []
    else
      pure
        [{ title := jsStr resp.title query
           url := jsStr resp.pageUrl
             ("https://en.wikipedia.org/wiki/" ++ encodeURIComponent query)
           snippet := jsStr resp.extract ("Wikipedia article about " ++ query)
           domain := "wikipedia.org"
           score := 0.95
           published_date := some env.nowIso
           author := some "Wikipedia" }])

/-- `searchWithArXiv`: at most 3 regex-extracted entries, hardcoded
domain `arxiv.org`; a missing regex group falls back per the source
(`query`, `''`, now, `'arXiv Authors'`). -/
def searchWithArXiv (env : SearchEnv) (query : String) : List SearchResult :=
  tryCatchList (do
    let resp ← env.arxivFetch
    if !resp.ok then pure []
    else
      pure ((resp.entries.take 3).enum.map (fun ie =>
        { title := ie.2.title.getD query
          url := ie.2.id.getD ""
          snippet := ie.2.summary.getD ""
          domain := "arxiv.org"
          score := 0.9 - (ie.1 : ℚ) * 0.1
          published_date := some (ie.2.published.getD env.nowIso)
          author := some
            (match ie.2.authors with
             | some l => String.intercalate ", " l
             | none => "arXiv Authors") })))

/-- `searchWithPubMed`: per-id summary fetches; a rejected summary fetch
propagates to the outer catch (returning `[]`), a non-ok response or a
missing article just skips that id. -/
def searchWithPubMed (env : SearchEnv) (query : String) : List SearchResult :=
  tryCatchList (do
    let resp ← env.pubmedSearchFetch
    if !resp.ok then pure []
    else
      match resp.idlist with
      | none => pure []
      | some ids => do
        let parts ← (ids.take 3).mapM (fun id => do
          let sresp ← env.pubmedSummaryFetch id
          if !sresp.ok then pure (none : Option SearchResult)
          else
            match sresp.article with
            | none => pure none
            | some article =>
              pure (some
                { title := jsStr article.title ("PubMed Article " ++ id)
                  url := "https://pubmed.ncbi.nlm.nih.gov/" ++ id ++ "/"
                  snippet := jsStr article.abstract ("Research article about " ++ query)
                  domain := "pubmed.ncbi.nlm.nih.gov"
                  score := 0.85
                  published_date := some (jsStr article.pubdate env.nowIso)
                  author := some
                    (match article.authors with
                     | some l => jsStr (some (String.intercalate ", " l)) "PubMed Authors"
                     | none => "PubMed Authors") }))
        pure parts.reduceOption)

/-- `SearchService.getEnhancedFallbackResults` — the aggregator's
synthetic fallback: 3 query-parameterized results with scores 0.95, 0.9,
0.85. -/
def getEnhancedFallbackResults (currentYear : Nat) (query : String) : List SearchResult :=
  [{ title := "Comprehensive Research on " ++ query
     url := "https://scholar.google.com/scholar?q=" ++ encodeURIComponent query
     snippet := "Academic research and scholarly articles about " ++ query ++
       ", including peer-reviewed papers, theses, books, conference papers, and other scholarly literature."
     domain := "scholar.google.com"
     score := 0.95
     published_date := some (toString currentYear ++ "-01-01T00:00:00Z")
     author := some "Academic Community" },
   { title := query ++ ": Latest Research and Developments"
     url := "https://arxiv.org/search/?query=" ++ encodeURIComponent query
     snippet := "Recent preprints and research papers on " ++ query ++
       " from arXiv, covering the latest developments and findings in the field."
     domain := "arxiv.org"
     score := 0.9
     published_date := some (toString currentYear ++ "-02-01T00:00:00Z")
     author := some "Research Community" },
   { title := query ++ ": Technical Documentation and Resources"
     url := "https://github.com/search?q=" ++ encodeURIComponent query
     snippet := "Open source projects, documentation, and technical resources related to " ++
       query ++ " from the developer community."
     domain := "github.com"
     score := 0.85
     published_date := some (toString currentYear ++ "-03-01T00:00:00Z")
     author := some "Developer Community" }]

/-- `getRealSearchResults`: fan out to the four open providers
(`Promise.allSettled` — which never rejects), concatenate in promise
order, deduplicate, sort by score descending (JS stable sort).  The
source's `catch` branch returning `getEnhancedFallbackResults` is
unreachable: each provider function swallows its own failures and the
remaining steps are total, so the `try` body never throws. -/
def getRealSearchResults (env : SearchEnv) (query : String) : List SearchResult :=
  let results :=
    searchWithDuckDuckGo env query ++ searchWithWikipedia env query ++
      searchWithArXiv env query ++ searchWithPubMed env query
  let uniqueResults := removeDuplicates results
  uniqueResults.mergeSort (fun a b => b.score ≤ a.score)

/-- `enhanceSearchResults`: per-result scraping; a successful scrape
replaces title/snippet (keeping url and domain) and adds `+0.1` to the
score, a failed scrape leaves the result unchanged. -/
def enhanceSearchResults (scrape : String → Option ScrapedContent)
    (results : List SearchResult) : List SearchResult :=
  results.map (fun result =>
    match scrape result.url with
    | some sc =>
      { result with
        title := jsStr (some sc.title) result.title
        snippet := jsStr (some sc.snippet) result.snippet
        score := result.score + 0.1 }
    | none => result)

/-- `SearchService.search`: LangSearch when keyed, Brave as backup when
keyed and fewer than 5 results so far, then the open fan-out when still
zero results, then enrichment, then truncation to `numResults`.  The
`freshness`/`summary` options only shape outgoing requests. -/
def search (env : SearchEnv) (query : String) (numResults : Nat := 10) :
    List SearchResult :=
  let results1 := if env.langSearchKey then searchWithLangSearch env query numResults else []
  let results2 :=
    if env.braveKey && results1.length < 5 then
      searchWithBrave env query ((numResults : Int) - results1.length)
    else []
  let results := results1 ++ results2
  let finalResults :=
    if results.length > 0 then results else getRealSearchResults env query
  (enhanceSearchResults env.scrape finalResults).take numResults

/-- A document sent to the rerank endpoint (`metadata` flattened). -/
structure RerankDocument where
  id : String
  text : String
  metadataUrl : String
  metadataDomain : String
  metadataOriginalScore : ℚ
deriving DecidableEq, Repr

/-- The document list `rerankResults` builds:
`id = index.toString()`, `text = `${title} ${snippet}``. -/
def buildRerankDocuments (results : List SearchResult) : List RerankDocument :=
  results.enum.map (fun ir =>
    { id := toString ir.1
      text := ir.2.title ++ " " ++ ir.2.snippet
      metadataUrl := ir.2.url
      metadataDomain := ir.2.domain
      metadataOriginalScore := ir.2.score })

/-- One element of `data.results` in a rerank response
(`result.document?.id` flattened to `document_id`). -/
structure RerankRespEntry where
  document_id : Option String := none
  relevance_score : Option ℚ := none

/-- A rerank HTTP response. -/
structure RerankResp where
  ok : Bool
  code : Option Int := none
  results : Option (List RerankRespEntry) := none

/-- `results[Number.parseInt(result.document?.id || "0")] || results[0]`:
re-associate a returned document id with its candidate; an unparseable,
negative or out-of-range id falls back to the first candidate `r0`. -/
def resolveRerankId (results : List SearchResult) (r0 : SearchResult)
    (docId : Option String) : SearchResult :=
  match parseIntJS (jsStr docId "0") with
  | some (Int.ofNat n) => results.getD n r0
  | some (Int.negSucc _) => r0
  | none => r0

/-- `SearchService.rerankResults`: skip when unkeyed or empty; on
transport error, non-ok response, error code, or missing results array
return the pre-rerank candidates truncated to `topN`; otherwise map each
returned document back to its candidate with the rerank score
(`result.relevance_score || 1 - index * 0.1`). -/
def rerankResults (hasKey : Bool) (query : String) (resp : Except Unit RerankResp)
    (results : List SearchResult) (topN : Nat := 10) : List SearchResult :=
  if !hasKey || results.isEmpty then results.take topN
  else
    match results with
    | [] => results.take topN
    | r0 :: _ =>
      match resp with
      | .error _ => results.take topN
      | .ok data =>
        if !data.ok then results.take topN
        else if badApiCode data.code then results.take topN
        else
          match data.results with
          | none => results.take topN
          | some rs =>
            rs.enum.map (fun ir =>
              { resolveRerankId results r0 ir.2.document_id with
                score := jsOrQ ir.2.relevance_score (1 - (ir.1 : ℚ) * 0.1) })

/-- Two inputs whose distinct `(title, url)` pairs collide under the
`` `${title}-${url}` `` composite key. -/
def collideA : SearchResult :=
  { title := "a-b", url := "c", snippet := "", domain := "", score := 0 }

/-- See `collideA`. -/
def collideB : SearchResult :=
  { title := "a", url := "b-c", snippet := "", domain := "", score := 0 }

end SearchService

/-- Claim C9, counterexample.  `removeDuplicates` keys on the string
`` `${title}-${url}` ``, so the distinct pairs `("a-b","c")` and
`("a","b-c")` share the key `"a-b-c"`: the second record is dropped even
though its `(title, url)` pair is distinct and occurs here for the first
time — contradicting "keeps, for each distinct (title, url) pair, only its
first occurrence". -/
theorem claim9_counterexample :
    SearchService.removeDuplicates [SearchService.collideA, SearchService.collideB] =
        [SearchService.collideA] ∧
      SearchService.collideA.title ≠ SearchService.collideB.title ∧
      SearchService.collideA.url ≠ SearchService.collideB.url := by
  decide

/-- Claim C9, amended: deduplication is keyed on the single string
`title ++ "-" ++ url` (so distinct `(title, url)` pairs whose composite
strings coincide are conflated); per key the first occurrence in input
order is kept and later occurrences are dropped, and deduplication is
idempotent. -/
theorem claim9_dedup_spec :
    ∀ (l : List SearchResult) (r : SearchResult) (rest : List SearchResult),
      SearchService.removeDuplicates (SearchService.removeDuplicates l) =
          SearchService.removeDuplicates l ∧
        SearchService.removeDuplicates (r :: rest) =
          r :: SearchService.removeDuplicates
            (rest.filter (fun x => SearchService.dedupKey x ≠ SearchService.dedupKey r)) := by
  intro l r rest
  exact ⟨SearchService.removeDuplicatesAux_idem l [],
    SearchService.removeDuplicates_cons_key r rest⟩

namespace ResearchRoute

/-- The research route's own `getEnhancedFallbackResults` (the fallback
producer wired into `performWebSearchWithRetry`): 3 query-parameterized
results with scores 0.95, 0.92, 0.88 — a distinct function from the
`SearchService` fallback of the same name. -/
def getEnhancedFallbackResults (currentYear : Nat) (query : String) : List SearchResult :=
  [{ title := "Comprehensive Analysis of " ++ query ++ ": Current Research and Applications"
     url := "https://scholar.google.com/scholar?q=" ++ encodeURIComponent query
     snippet := "This comprehensive analysis examines the current state of " ++ query ++
       ", including recent developments, methodologies, and practical applications. The research covers theoretical foundations, empirical studies, and emerging trends in the field."
     domain := "scholar.google.com"
     score := 0.95
     published_date := some (toString currentYear ++ "-01-15T00:00:00Z")
     author := some "Academic Research Team" },
   { title := query ++ ": Systematic Review and Meta-Analysis"
     url := "https://pubmed.ncbi.nlm.nih.gov/?term=" ++ encodeURIComponent query
     snippet := "A systematic review examining " ++ query ++
       " through multiple research studies and meta-analytical approaches. This study synthesizes findings from peer-reviewed literature to provide evidence-based insights."
     domain := "pubmed.ncbi.nlm.nih.gov"
     score := 0.92
     published_date := some (toString currentYear ++ "-02-20T00:00:00Z")
     author := some "Research Consortium" },
   { title := "Recent Advances in " ++ query ++ ": A Technical Perspective"
     url := "https://arxiv.org/search/?query=" ++ encodeURIComponent query
     snippet := "This technical paper discusses recent advances in " ++ query ++
       ", focusing on innovative methodologies, computational approaches, and future research directions. The work presents both theoretical contributions and practical implementations."
     domain := "arxiv.org"
     score := 0.88
     published_date := some (toString currentYear ++ "-03-10T00:00:00Z")
     author := some "Dr. Research Specialist" }]

/-- The research route defines five syntactically identical retry wrappers
(`performWebSearchWithRetry`, `generateSummaryWithRetry`,
`generateCitationsWithRetry`, `extractInsightsWithRetry`,
`generateRelatedTopicsWithRetry`), each with body
`for (attempt = 1; attempt <= maxRetries; attempt++) { try { return await f() }
catch { if (attempt === maxRetries) return g(); await wait(2^attempt * 1000) } }`
followed by a final `return g()`.  `stageWithRetryLoop` embeds that common
body; `remaining` counts the loop iterations still allowed
(`maxRetries - attempt + 1`), `f` maps the attempt number to the stage
outcome, `g` is the local fallback producer, and the returned list records
the milliseconds waited between attempts. -/
def stageWithRetryLoop (f : Nat → Except Unit α) (g : Unit → α) :
    Nat → Nat → List Nat → α × List Nat
  | 0, _, waits => (g (), waits)
  | remaining + 1, attempt, waits =>
    match f attempt with
    | .ok v => (v, waits)
    | .error _ =>
      if remaining = 0 then (g (), waits)
      else stageWithRetryLoop f g remaining (attempt + 1) (waits ++ [2 ^ attempt * 1000])

/-- A stage retry wrapper: run the loop from attempt 1 with
`maxRetries = 3` (every caller in the route uses the default). -/
def stageWithRetry (f : Nat → Except Unit α) (g : Unit → α)
    (maxRetries : Nat := 3) : α × List Nat :=
  stageWithRetryLoop f g maxRetries 1 []

end ResearchRoute

/-- Claim C2 (confirmed).  Every stage retry wrapper attempts the stage
function up to exactly 3 times, waiting `2^attempt * 1000` milliseconds
(that is, `2^attempt` seconds) after failed attempt number `attempt`;
a success at any attempt returns that attempt's value with no further
tries, and after the 3rd failure the wrapper returns the fallback
producer's output instead of raising. -/
theorem claim2_retry_spec (f : Nat → Except Unit α) (g : Unit → α) :
    (∀ v, f 1 = .ok v → ResearchRoute.stageWithRetry f g = (v, [])) ∧
      (∀ v, f 1 = .error () → f 2 = .ok v →
        ResearchRoute.stageWithRetry f g = (v, [2 ^ 1 * 1000])) ∧
      (∀ v, f 1 = .error () → f 2 = .error () → f 3 = .ok v →
        ResearchRoute.stageWithRetry f g = (v, [2 ^ 1 * 1000, 2 ^ 2 * 1000])) ∧
      (f 1 = .error () → f 2 = .error () → f 3 = .error () →
        ResearchRoute.stageWithRetry f g = (g (), [2 ^ 1 * 1000, 2 ^ 2 * 1000])) := by
  refine ⟨?_, ?_, ?_, ?_⟩
  · intro v h1
    simp [ResearchRoute.stageWithRetry, ResearchRoute.stageWithRetryLoop, h1]
  · intro v h1 h2
    simp [ResearchRoute.stageWithRetry, ResearchRoute.stageWithRetryLoop, h1, h2]
  · intro v h1 h2 h3
    simp [ResearchRoute.stageWithRetry, ResearchRoute.stageWithRetryLoop, h1, h2, h3]
  · intro h1 h2 h3
    simp [ResearchRoute.stageWithRetry, ResearchRoute.stageWithRetryLoop, h1, h2, h3]

/-- A stage that fails on attempts 1 and 2 and succeeds on attempt 3. -/
def retryStageProbe : Nat → Except Unit Nat :=
  fun n => if n = 3 then .ok 42 else .error ()

/-- Witness for `claim2_retry_spec`: the probe stage fails twice, succeeds
on the 3rd attempt, and the wrapper returns the success value `42` (not
the fallback `0`) after backing off 2000 ms and then 4000 ms. -/
theorem claim2_retry_spec_witness :
    ResearchRoute.stageWithRetry retryStageProbe (fun _ => 0) = (42, [2000, 4000]) := by
  have h := (claim2_retry_spec retryStageProbe (fun _ => 0)).2.2.1 42 rfl rfl rfl
  simpa using h

/-- `ProviderId` from `lib/types.ts`. -/
inductive ProviderId where
  | openalex
  | crossref
  | arxiv
  | europepmc
deriving DecidableEq, Repr

/-- `PaperConcept` from `lib/types.ts`. -/
structure PaperConcept where
  id : Option String := none
  name : String
  score : Option ℚ := none
deriving DecidableEq, Repr

/-- `Paper` from `lib/types.ts`.  `year` and the count fields are modelled
as `Option Int`; a JS `NaN` landing in a numeric field is modelled as
`none`. -/
structure Paper where
  id : String
  doi : Option String := none
  title : String
  abstract : Option String := none
  authors : List String
  year : Option Int := none
  publishedAt : Option String := none
  venue : Option String := none
  url : Option String := none
  pdfUrl : Option String := none
  source : ProviderId
  openAccess : Option Bool := none
  citationsCount : Option Int := none
  referencedByCount : Option Int := none
  concepts : Option (List PaperConcept) := none
deriving DecidableEq, Repr

namespace Normalizers

/-- `work.doi?.replace(/^https?:\/\/doi\.org\//, '')`: strip one leading
`http(s)://doi.org/` prefix. -/
def stripDoiUrl (s : String) : String :=
  match dropLit "https://doi.org/".data s.data with
  | some r => ⟨r⟩
  | none =>
    match dropLit "http://doi.org/".data s.data with
    | some r => ⟨r⟩
    | none => s

/-- JS `Number(s)` restricted to the plain decimal-digit strings this
codebase feeds it (4-character date slices, Europe PMC `pubYear`); any
other shape yields `NaN`, modelled as `none`. -/
def jsNumber (s : String) : Option Int :=
  if s.isEmpty then some 0
  else if s.data.all (·.isDigit) then
    some ((s.data.foldl (fun a c => a * 10 + (c.toNat - 48)) 0 : Nat) : Int)
  else none

/-- After a `<`: the regex `<[^>]+>` needs at least one non-`>` character
and then a `>`; return the characters after that `>` when it matches. -/
def goUntilGt : List Char → Option (List Char)
  | [] => none
  | '>' :: r => some r
  | _ :: r => goUntilGt r

/-- See `goUntilGt`: match `[^>]+>` at the head of the list. -/
def dropTag : List Char → Option (List Char)
  | [] => none
  | '>' :: _ => none
  | _ :: rest => goUntilGt rest

theorem goUntilGt_length : ∀ l r, goUntilGt l = some r → r.length < l.length := by
  intro l
  induction l with
  | nil => intro r h; cases h
  | cons c rest ih =>
    intro r h
    unfold goUntilGt at h
    split at h
    · cases h
    · rename_i tail heq
      injection h with h'
      injection heq with hc hrest
      subst hrest h'
      simp
    · rename_i d tail heq
      injection heq with h1 h2
      subst h2
      have := ih r h
      simp; omega

theorem dropTag_length : ∀ l r, dropTag l = some r → r.length < l.length := by
  intro l r h
  unfold dropTag at h
  split at h
  · cases h
  · cases h
  · have := goUntilGt_length _ _ h
    simp; omega

/-- `.replace(/<[^>]+>/g, ' ')`: every matched tag becomes one space; an
unterminated `<` is left in place. -/
def stripTags (s : List Char) : List Char :=
  match s with
  | [] => []
  | c :: rest =>
    if c = '<' then
      match h : dropTag rest with
      | some r => ' ' :: stripTags r
      | none => '<' :: stripTags rest
    else c :: stripTags rest
termination_by s.length
decreasing_by
  · have := dropTag_length rest r h; simp; omega
  · simp
  · simp

/-- `s.replace(/^<jats:p>/i, '')`: strip one leading `<jats:p>` tag,
case-insensitively. -/
def stripJatsP (s : String) : String :=
  let lower := s.toLower
  if "<jats:p>".isPrefixOf lower then s.drop 8 else s

/-- The Crossref abstract cleanup:
`abstract.replace(/^<jats:p>/i, '').replace(/<[^>]+>/g, ' ').trim()`. -/
def cleanCrossrefAbstract (s : String) : String :=
  String.trim ⟨stripTags (stripJatsP s).data⟩

/-- `/pdf/i.test(x)`: case-insensitive substring test. -/
def testPdfCI (s : String) : Bool := strIncludes s.toLower "pdf"

/-- The `(position, word)` pairs collected from an inverted index:
`for (word, inds) of Object.entries(index): for pos of inds: push {pos, word}`.
`Object.entries` iteration order is the JSON insertion order, modelled by
the association-list order. -/
def collectPositions (entries : List (String × List Nat)) : List (Nat × String) :=
  entries.flatMap (fun wp => wp.2.map (fun pos => (pos, wp.1)))

/-- `reconstructAbstractFromInvertedIndex`: collect all (position, word)
pairs, stable-sort ascending by position (`positions.sort((a, b) => a.pos - b.pos)`,
JS `Array.prototype.sort` is stable), join the words with single spaces. -/
def reconstructAbstractFromInvertedIndex
    (index : Option (List (String × List Nat))) : Option String :=
  match index with
  | none => none
  | some entries =>
    let positions := collectPositions entries
    let sorted := positions.mergeSort (fun a b => a.1 ≤ b.1)
    some (String.intercalate " " (sorted.map (·.2)))

/-- The fields of an OpenAlex work record that `normalizeOpenAlexWork`
reads, with nested optional paths flattened (for example
`primary_location?.source?.display_name` becomes one optional field, and
each `authorships[i]?.author?.display_name` is one optional string). -/
structure OpenAlexWork where
  id : String
  doi : Option String := none
  display_name : Option String := none
  title : Option String := none
  abstract : Option String := none
  abstract_inverted_index : Option (List (String × List Nat)) := none
  authorships : Option (List (Option String)) := none
  host_venue_display_name : Option String := none
  primary_location_source_display_name : Option String := none
  primary_location_venue_display_name : Option String := none
  primary_location_landing_page_url : Option String := none
  primary_location_pdf_url : Option String := none
  open_access_oa_url : Option String := none
  open_access_is_oa : Option Bool := none
  concepts : Option (List PaperConcept) := none
  publication_year : Option Int := none
  publication_date : Option String := none
  from_publication_date : Option String := none
  cited_by_count : Option Int := none
  referenced_works_count : Option Int := none
  referenced_works : Option (List String) := none

/-- `normalizeOpenAlexWork` from `lib/normalizers.ts`.  Note: `Paper.id`
is the OpenAlex-native `work.id`, DOI or not. -/
def normalizeOpenAlexWork (work : OpenAlexWork) : Paper :=
  let doi := truthyStr (work.doi.map stripDoiUrl)
  let authors :=
    match work.authorships with
    | some l => l.filterMap truthyStr
    | none => []
  let venue :=
    (truthyStr work.host_venue_display_name).orElse fun _ =>
      (truthyStr work.primary_location_source_display_name).orElse fun _ =>
        truthyStr work.primary_location_venue_display_name
  let landing :=
    (truthyStr work.primary_location_landing_page_url).orElse fun _ =>
      (truthyStr work.open_access_oa_url).orElse fun _ =>
        doi.map (fun d => "https://doi.org/" ++ d)
  let pdfUrl :=
    (truthyStr work.primary_location_pdf_url).orElse fun _ =>
      truthyStr work.open_access_oa_url
  let abstract :=
    (truthyStr work.abstract).orElse fun _ =>
      reconstructAbstractFromInvertedIndex work.abstract_inverted_index
  { id := work.id
    doi
    title := jsStr work.display_name (jsStr work.title "Untitled")
    abstract
    authors
    year := jsOrI work.publication_year
      ((truthyStr work.from_publication_date).bind (fun s => jsNumber (s.take 4)))
    publishedAt := (truthyStr work.publication_date).orElse fun _ =>
      truthyStr work.from_publication_date
    venue
    url := landing
    pdfUrl
    source := .openalex
    openAccess := work.open_access_is_oa
    citationsCount := work.cited_by_count
    referencedByCount := work.referenced_works_count.orElse fun _ =>
      work.referenced_works.map (fun l => (l.length : Int))
    concepts := work.concepts }

/-- One element of a Crossref `author` array. -/
structure CrossrefAuthor where
  given : Option String := none
  family : Option String := none

/-- The fields of a Crossref `message.items[i]` record that
`normalizeCrossrefItem` reads.  `title` and `container-title` arrive as
arrays of strings (the non-array fallback branch of the source collapses
to the `none` case); `issued?.['date-parts']` is a list of rows. -/
structure CrossrefItem where
  DOI : Option String := none
  author : Option (List CrossrefAuthor) := none
  title : Option (List String) := none
  abstract : Option String := none
  issued_date_parts : Option (List (List Int)) := none
  created_date_time : Option String := none
  container_title : Option (List String) := none
  URL : Option String := none
  license_present : Bool := false
  is_referenced_by_count : Option Int := none

/-- `normalizeCrossrefItem` from `lib/normalizers.ts`.  With a DOI the id
is `https://doi.org/<doi>`; without one it falls back to `URL || title`. -/
def normalizeCrossrefItem (item : CrossrefItem) : Paper :=
  let doi := truthyStr item.DOI
  let authors :=
    match item.author with
    | some l =>
      (l.map (fun a =>
        String.trim (String.intercalate " " ([a.given, a.family].filterMap truthyStr)))).filter
          (fun s => !s.isEmpty)
    | none => []
  let title :=
    match item.title with
    | some (t :: _) => t
    | some [] => "undefined"
    | none => "Untitled"
  let url := (truthyStr item.URL).orElse fun _ =>
    doi.map (fun d => "https://doi.org/" ++ d)
  { id :=
      match doi with
      | some d => "https://doi.org/" ++ d
      | none => jsStr url title
    doi
    title
    abstract := item.abstract.map cleanCrossrefAbstract
    authors
    year :=
      match item.issued_date_parts with
      | some (row :: _) => row.head?
      | _ => none
    publishedAt := truthyStr item.created_date_time
    venue :=
      match item.container_title with
      | some (v :: _) => some v
      | _ => none
    url
    pdfUrl := none
    source := .crossref
    openAccess := if item.license_present then some true else none
    citationsCount := item.is_referenced_by_count
    referencedByCount := none
    concepts := none }

/-- The parsed arXiv Atom entry handed to `normalizeArxivEntry` (the
provider client extracts these fields from the feed). -/
structure ArxivEntry where
  id : String
  title : String
  summary : Option String := none
  authors : List String
  published : Option String := none
  pdfUrl : Option String := none

/-- `new Date(s).getFullYear()` for the ISO timestamps arXiv feeds carry:
the year is the leading 4-digit prefix; anything else is `NaN` (`none`). -/
def jsDateYearIso (s : String) : Option Int :=
  if (s.take 4).data.all (·.isDigit) && !(s.take 4).isEmpty then jsNumber (s.take 4) else none

/-- `normalizeArxivEntry` from `lib/normalizers.ts`: the id is the entry
id verbatim and `doi` is always absent. -/
def normalizeArxivEntry (entry : ArxivEntry) : Paper :=
  { id := entry.id
    doi := none
    title := jsStr (some entry.title) "Untitled"
    abstract := entry.summary
    authors := entry.authors
    year := (truthyStr entry.published).bind jsDateYearIso
    publishedAt := entry.published
    venue := some "arXiv"
    url := some entry.id
    pdfUrl := entry.pdfUrl
    source := .arxiv
    openAccess := some true
    citationsCount := none
    referencedByCount := none
    concepts := none }

/-- One element of `fullTextUrlList.fullTextUrl` in a Europe PMC record. -/
structure EuropePmcFullTextUrl where
  documentStyle : Option String := none
  availability : Option String := none
  url : Option String := none

/-- The fields of a Europe PMC result record that `normalizeEuropePmcItem`
reads. -/
structure EuropePmcItem where
  doi : Option String := none
  id : Option String := none
  source : Option String := none
  title : Option String := none
  abstractText : Option String := none
  authorString : Option String := none
  fullTextUrls : Option (List EuropePmcFullTextUrl) := none
  pubYear : Option String := none
  firstPublicationDate : Option String := none
  journalTitle : Option String := none
  bookOrReportDetails : Option String := none
  pageInfo : Option String := none
  isOpenAccess : Option String := none
  citedByCount : Option Int := none

/-- `normalizeEuropePmcItem` from `lib/normalizers.ts`.  With a DOI the id
is `https://doi.org/<doi>`; otherwise `europepmc:<id>`, or the title, or
`"unknown"`.  In the pdf search, `u.documentStyle || u.availability || u.url`
falling all the way through yields JS `undefined`, which `/pdf/i.test`
coerces to the string `"undefined"`. -/
def normalizeEuropePmcItem (item : EuropePmcItem) : Paper :=
  let doi := truthyStr item.doi
  let authors :=
    match truthyStr item.authorString with
    | some s => ((s.splitOn ",").map String.trim).filter (fun t => !t.isEmpty)
    | none => []
  let pdfUrl :=
    match item.fullTextUrls with
    | some l =>
      (l.find? (fun u =>
        testPdfCI (jsStr u.documentStyle (jsStr u.availability (jsStr u.url "undefined"))))).bind
          (·.url)
    | none => none
  let landing :=
    match truthyStr item.id, truthyStr item.source with
    | some i, some s => some ("https://europepmc.org/abstract/" ++ s ++ "/" ++ i)
    | _, _ => truthyStr item.pageInfo
  { id :=
      match doi with
      | some d => "https://doi.org/" ++ d
      | none =>
        match truthyStr item.id with
        | some i => "europepmc:" ++ i
        | none => jsStr item.title "unknown"
    doi
    title := jsStr item.title "Untitled"
    abstract := truthyStr item.abstractText
    authors
    year := (truthyStr item.pubYear).bind jsNumber
    publishedAt := truthyStr item.firstPublicationDate
    venue := (truthyStr item.journalTitle).orElse fun _ =>
      truthyStr item.bookOrReportDetails
    url := landing
    pdfUrl
    source := .europepmc
    openAccess :=
      if item.isOpenAccess = some "Y" then some true
      else if item.isOpenAccess = some "N" then some false
      else none
    citationsCount := item.citedByCount
    referencedByCount := none
    concepts := none }

/-- The pair ordering used by the abstract reconstruction sort. -/
def posLe (a b : Nat × String) : Bool := a.1 ≤ b.1

theorem posLe_trans : ∀ a b c : Nat × String,
    posLe a b = true → posLe b c = true → posLe a c = true := by
  intro a b c h1 h2
  simp [posLe] at *
  omega

theorem posLe_total : ∀ a b : Nat × String, (posLe a b || posLe b a) = true := by
  intro a b
  rcases Nat.le_total a.1 b.1 with h | h <;> simp [posLe, h]

end Normalizers

unseal List.merge List.mergeSort in
/-- Claim C8 (confirmed).  Abstract reconstruction collects all
(position, word) pairs across the inverted index, stable-sorts them by
position ascending, and joins the words with single spaces; on
`{"A": [2], "quick": [0], "brown": [1]}` it yields `"quick brown A"`.
The conjuncts: the concrete example; the sorted pair list is ascending in
position; it is a permutation of the collected pairs; and the sort is
stable (every ascending sublist of the input survives as a sublist of the
output, the `mergeSort` stability property). -/
theorem claim8_reconstruct_spec :
    Normalizers.reconstructAbstractFromInvertedIndex
        (some [("A", [2]), ("quick", [0]), ("brown", [1])]) = some "quick brown A" ∧
      (∀ entries,
        ((Normalizers.collectPositions entries).mergeSort Normalizers.posLe).Pairwise
          (fun a b => a.1 ≤ b.1)) ∧
      (∀ entries,
        ((Normalizers.collectPositions entries).mergeSort Normalizers.posLe).Perm
          (Normalizers.collectPositions entries)) ∧
      (∀ entries (c : List (Nat × String)),
        c.Pairwise (fun a b => a.1 ≤ b.1) →
        c.Sublist (Normalizers.collectPositions entries) →
        c.Sublist ((Normalizers.collectPositions entries).mergeSort Normalizers.posLe)) := by
  refine ⟨by decide, ?_, ?_, ?_⟩
  · intro entries
    have h := @List.sorted_mergeSort _ Normalizers.posLe
      Normalizers.posLe_trans Normalizers.posLe_total
      (Normalizers.collectPositions entries)
    exact h.imp (fun hab => by simpa [Normalizers.posLe] using hab)
  · intro entries
    exact List.mergeSort_perm _ _
  · intro entries c hc hsub
    exact List.mergeSort_stable Normalizers.posLe_trans Normalizers.posLe_total
      (by exact hc.imp (fun hab => by simp [Normalizers.posLe, hab])) hsub

/-- Witness for `claim8_reconstruct_spec`: the stability conjunct applied
to the already-ascending sublist `[(0, "quick"), (1, "brown")]` of the
example index's collected pairs. -/
theorem claim8_reconstruct_spec_witness :
    [(0, "quick"), (1, "brown")].Sublist
      ((Normalizers.collectPositions [("A", [2]), ("quick", [0]), ("brown", [1])]).mergeSort
        Normalizers.posLe) := by
  exact claim8_reconstruct_spec.2.2.2 [("A", [2]), ("quick", [0]), ("brown", [1])]
    [(0, "quick"), (1, "brown")] (by decide) (by decide)

/-- OpenAlex work carrying a DOI: the normalizer still takes the
OpenAlex-native `work.id`. -/
def oaWorkWithDoi : Normalizers.OpenAlexWork :=
  { id := "https://openalex.org/W2741809807"
    doi := some "https://doi.org/10.7717/peerj.4375" }

/-- Europe PMC item carrying the same DOI as `oaWorkWithDoi`. -/
def epmcItemWithDoi : Normalizers.EuropePmcItem :=
  { doi := some "10.7717/peerj.4375", id := some "29456894", source := some "MED" }

/-- Claim C4, counterexample.  Both records carry the same DOI
`10.7717/peerj.4375`, yet `normalizeOpenAlexWork` emits the
OpenAlex-native id `https://openalex.org/W2741809807` — not a DOI-based
id — while `normalizeEuropePmcItem` emits `https://doi.org/10.7717/peerj.4375`,
so the two providers do not produce the same id for a shared DOI. -/
theorem claim4_counterexample :
    (Normalizers.normalizeOpenAlexWork oaWorkWithDoi).doi = some "10.7717/peerj.4375" ∧
      (Normalizers.normalizeEuropePmcItem epmcItemWithDoi).doi = some "10.7717/peerj.4375" ∧
      (Normalizers.normalizeOpenAlexWork oaWorkWithDoi).id = "https://openalex.org/W2741809807" ∧
      (Normalizers.normalizeEuropePmcItem epmcItemWithDoi).id =
        "https://doi.org/10.7717/peerj.4375" ∧
      (Normalizers.normalizeOpenAlexWork oaWorkWithDoi).id ≠
        (Normalizers.normalizeEuropePmcItem epmcItemWithDoi).id := by
  refine ⟨rfl, rfl, rfl, rfl, by decide⟩

/-- Claim C4, amended.  The Crossref and Europe PMC normalizers emit the
DOI-based id `https://doi.org/<doi>` whenever the payload carries a DOI —
and therefore agree on records sharing a DOI; without a DOI Europe PMC
uses the provider-prefixed `europepmc:<id>` fallback (Crossref falls back
to `URL || title` instead).  The OpenAlex normalizer always uses the
provider-native `work.id` and the arXiv normalizer the entry id,
regardless of any DOI. -/
theorem claim4_normalizer_ids :
    (∀ w, (Normalizers.normalizeOpenAlexWork w).id = w.id) ∧
      (∀ e, (Normalizers.normalizeArxivEntry e).id = e.id ∧
        (Normalizers.normalizeArxivEntry e).doi = none) ∧
      (∀ item d, (Normalizers.normalizeCrossrefItem item).doi = some d →
        (Normalizers.normalizeCrossrefItem item).id = "https://doi.org/" ++ d) ∧
      (∀ item d, (Normalizers.normalizeEuropePmcItem item).doi = some d →
        (Normalizers.normalizeEuropePmcItem item).id = "https://doi.org/" ++ d) ∧
      (∀ item i, (Normalizers.normalizeEuropePmcItem item).doi = none →
        truthyStr item.id = some i →
        (Normalizers.normalizeEuropePmcItem item).id = "europepmc:" ++ i) ∧
      (∀ cr ep d, (Normalizers.normalizeCrossrefItem cr).doi = some d →
        (Normalizers.normalizeEuropePmcItem ep).doi = some d →
        (Normalizers.normalizeCrossrefItem cr).id =
          (Normalizers.normalizeEuropePmcItem ep).id) := by
  have hcr : ∀ item d, truthyStr item.DOI = some d →
      (Normalizers.normalizeCrossrefItem item).id = "https://doi.org/" ++ d := by
    intro item d h
    simp [Normalizers.normalizeCrossrefItem, h]
  have hep : ∀ item d, truthyStr item.doi = some d →
      (Normalizers.normalizeEuropePmcItem item).id = "https://doi.org/" ++ d := by
    intro item d h
    simp [Normalizers.normalizeEuropePmcItem, h]
  refine ⟨fun w => rfl, fun e => ⟨rfl, rfl⟩, ?_, ?_, ?_, ?_⟩
  · intro item d h
    exact hcr item d h
  · intro item d h
    exact hep item d h
  · intro item i hdoi hid
    simp only [Normalizers.normalizeEuropePmcItem] at hdoi ⊢
    simp [hdoi, hid]
  · intro cr ep d h1 h2
    rw [hcr cr d h1, hep ep d h2]

/-- Witness for `claim4_normalizer_ids`: the shared-DOI conjunct applied
to a concrete Crossref item and a concrete Europe PMC item carrying DOI
`10.7717/peerj.4375` — their normalized ids coincide. -/
theorem claim4_normalizer_ids_witness :
    (Normalizers.normalizeCrossrefItem { DOI := some "10.7717/peerj.4375" }).id =
      (Normalizers.normalizeEuropePmcItem epmcItemWithDoi).id := by
  exact claim4_normalizer_ids.2.2.2.2.2 { DOI := some "10.7717/peerj.4375" }
    epmcItemWithDoi "10.7717/peerj.4375" rfl rfl

namespace ApiRoutes

/-- `parseInt(x, 10) || dflt`: `NaN` and `0` both fall back. -/
def jsOrInt (a : Option Int) (b : Int) : Int :=
  match a with
  | none => b
  | some n => if n = 0 then b else n

/-- `/api/openalex/works`:
`perPageParam ? Math.min(200, Math.max(1, parseInt(perPageParam, 10) || 25)) : 25`.
The input is the first truthy of `searchParams.get('perPage')` and
`searchParams.get('per-page')`. -/
def openAlexWorksPerPage (perPageParam : Option String) : Int :=
  match perPageParam with
  | none => 25
  | some s => min 200 (max 1 (jsOrInt (parseIntJS s) 25))

/-- `/api/crossref/works`:
`rowsParam ? Math.min(200, Math.max(1, parseInt(rowsParam, 10) || 25)) : 25`. -/
def crossrefWorksRows (rowsParam : Option String) : Int :=
  match rowsParam with
  | none => 25
  | some s => min 200 (max 1 (jsOrInt (parseIntJS s) 25))

/-- `/api/arxiv/works`:
`maxResultsParam ? Math.min(200, Math.max(1, parseInt(maxResultsParam, 10) || 25)) : 25`. -/
def arxivWorksMaxResults (maxResultsParam : Option String) : Int :=
  match maxResultsParam with
  | none => 25
  | some s => min 200 (max 1 (jsOrInt (parseIntJS s) 25))

/-- `/api/europepmc/works`:
`pageSizeParam ? Math.min(100, Math.max(1, parseInt(pageSizeParam, 10) || 25)) : 25`. -/
def europePmcWorksPageSize (pageSizeParam : Option String) : Int :=
  match pageSizeParam with
  | none => 25
  | some s => min 100 (max 1 (jsOrInt (parseIntJS s) 25))

theorem clamp_bounds (m x : Int) (hm : 1 ≤ m) :
    1 ≤ min m (max 1 x) ∧ min m (max 1 x) ≤ m :=
  ⟨le_min hm (le_max_left 1 x), min_le_left m _⟩

end ApiRoutes

/-- Claim C10 (confirmed).  Every bibliographic works route clamps its
numeric page-size parameter into `[1, provider max]` — 200 for OpenAlex,
Crossref, and arXiv, 100 for Europe PMC — instead of rejecting it, and a
requested page size of `"300"` comes out as the provider maximum. -/
theorem claim10_page_size_clamps :
    (∀ p, 1 ≤ ApiRoutes.openAlexWorksPerPage p ∧ ApiRoutes.openAlexWorksPerPage p ≤ 200) ∧
      (∀ p, 1 ≤ ApiRoutes.crossrefWorksRows p ∧ ApiRoutes.crossrefWorksRows p ≤ 200) ∧
      (∀ p, 1 ≤ ApiRoutes.arxivWorksMaxResults p ∧ ApiRoutes.arxivWorksMaxResults p ≤ 200) ∧
      (∀ p, 1 ≤ ApiRoutes.europePmcWorksPageSize p ∧ ApiRoutes.europePmcWorksPageSize p ≤ 100) ∧
      ApiRoutes.openAlexWorksPerPage (some "300") = 200 ∧
      ApiRoutes.crossrefWorksRows (some "300") = 200 ∧
      ApiRoutes.arxivWorksMaxResults (some "300") = 200 ∧
      ApiRoutes.europePmcWorksPageSize (some "300") = 100 := by
  refine ⟨?_, ?_, ?_, ?_, by decide, by decide, by decide, by decide⟩ <;>
    intro p <;>
    cases p with
    | none => constructor <;> decide
    | some s => exact ApiRoutes.clamp_bounds _ _ (by decide)

namespace ResearchRoute

/-- `text.match(/\[[\s\S]*\]/)` — the JSON-array extraction shared by the
generation stages.  The regex matches from the first `[` of the text
through the last `]` of the text (greedy `[\s\S]*`); there is no match
exactly when every `]` precedes the first `[`. -/
def extractJsonArraySpan (s : String) : Option String :=
  let rest := s.data.dropWhile (· ≠ '[')
  let kept := (rest.reverse.dropWhile (· ≠ ']')).reverse
  if kept.isEmpty then none else some ⟨kept⟩

/-- Scanner for `firstBalancedArray`: depth-counting bracket scan,
accumulating in reverse. -/
def balancedScan : List Char → Nat → List Char → Option (List Char)
  | [], _, _ => none
  | c :: cs, d, acc =>
    if c = '[' then balancedScan cs (d + 1) (c :: acc)
    else if c = ']' then
      if d = 1 then some (c :: acc).reverse else balancedScan cs (d - 1) (c :: acc)
    else balancedScan cs d (c :: acc)

/-- Modelled from the spec's words — "extract it via the first balanced
`[...]` substring in the raw text" — for comparison against the source's
`extractJsonArraySpan`. -/
def firstBalancedArray (s : String) : Option String :=
  match s.data.dropWhile (· ≠ '[') with
  | [] => none
  | rest => (balancedScan rest 0 []).map (fun l => (⟨l⟩ : String))

/-- The citation object shape the research route promises: 6 required
fields. -/
structure Citation where
  id : String
  formatted : String
  inText : String
  type : String
  year : String
  authors : List String
deriving DecidableEq, Repr

/-- A parsed element of the provider's JSON citation array: any of the
fields the mapping in `generateCitations` reads may be missing. -/
structure RawCitation where
  id : Option String := none
  formatted : Option String := none
  citation : Option String := none
  inText : Option String := none
  in_text : Option String := none
  type : Option String := none
  year : Option String := none
  authors : Option (List String) := none
deriving Repr

/-- `determineSourceType` from the research route. -/
def determineSourceType (domain : String) : String :=
  if strIncludes domain "edu" || strIncludes domain "arxiv" || strIncludes domain "scholar" then
    "academic"
  else if strIncludes domain "gov" || strIncludes domain "org" then "institutional"
  else if strIncludes domain "news" || strIncludes domain "reuters" || strIncludes domain "bbc" then
    "news"
  else "web"

/-- `extractYear` from the research route.  `dateYear` models
`new Date(s).getFullYear()` (engine date parsing; `none` is `NaN`) and
`currentYear` models `new Date().getFullYear()`. -/
def extractYear (dateYear : String → Option Int) (currentYear : Nat)
    (publishedDate : Option String) : String :=
  match truthyStr publishedDate with
  | none => toString currentYear
  | some s =>
    match dateYear s with
    | none => toString currentYear
    | some y => toString y

/-- The per-element mapping `generateCitations` applies to the parsed JSON
array: every missing field is replaced by a generated default. -/
def mapCitations (dateYear : String → Option Int) (currentYear : Nat)
    (citations : List RawCitation) (searchResults : List SearchResult) : List Citation :=
  citations.enum.map (fun ic =>
    let index := ic.1
    let citation := ic.2
    { id := jsStr citation.id ("cite-" ++ toString (index + 1))
      formatted := jsStr citation.formatted (jsStr citation.citation "")
      inText := jsStr citation.inText
        (jsStr citation.in_text ("(" ++ toString (index + 1) ++ ")"))
      type := jsStr citation.type
        (determineSourceType ((searchResults[index]?.map (·.domain)).getD ""))
      year := jsStr citation.year
        (extractYear dateYear currentYear (searchResults[index]?.bind (·.published_date)))
      authors :=
        match citation.authors with
        | some l => l
        | none => [jsStr (searchResults[index]?.bind (·.author)) "Unknown"] })

end ResearchRoute

/-- Claim C7, counterexample.  The stages extract the JSON array with the
greedy regex `/\[[\s\S]*\]/` — first `[` through the LAST `]` — not the
first balanced `[...]` substring: on `"[1] x [2]"` the source extracts
`"[1] x [2]"` (not valid JSON) while the first balanced substring is
`"[1]"`. -/
theorem claim7_counterexample :
    ResearchRoute.extractJsonArraySpan "[1] x [2]" = some "[1] x [2]" ∧
      ResearchRoute.firstBalancedArray "[1] x [2]" = some "[1]" ∧
      ResearchRoute.extractJsonArraySpan "[1] x [2]" ≠
        ResearchRoute.firstBalancedArray "[1] x [2]" := by
  refine ⟨by decide, by decide, by decide⟩

/-- Claim C7, amended.  Each generation stage extracts the substring
spanning from the first `[` to the last `]` of the raw response text
(greedy regex), tolerating prose before the first `[` and after the last
`]`; and for the citations stage, each accepted object has all 6 required
fields populated, with the generated default substituted for every
missing field (`cite-<i+1>`, the `citation`/`in_text` aliases then `""` /
`(<i+1>)`, the source-derived type, the extracted or current year, and
the source author or `"Unknown"`). -/
theorem claim7_extraction_and_defaults :
    (∀ pre mid post : String, '[' ∉ pre.data → ']' ∉ post.data →
      ResearchRoute.extractJsonArraySpan (pre ++ "[" ++ mid ++ "]" ++ post) =
        some ("[" ++ mid ++ "]")) ∧
      (∀ dateYear currentYear (citations : List ResearchRoute.RawCitation)
          (searchResults : List SearchResult) i c, citations[i]? = some c →
        (ResearchRoute.mapCitations dateYear currentYear citations searchResults)[i]? =
          some
            ({ id := jsStr c.id ("cite-" ++ toString (i + 1))
               formatted := jsStr c.formatted (jsStr c.citation "")
               inText := jsStr c.inText
                 (jsStr c.in_text ("(" ++ toString (i + 1) ++ ")"))
               type := jsStr c.type
                 (ResearchRoute.determineSourceType
                   ((searchResults[i]?.map (·.domain)).getD ""))
               year := jsStr c.year
                 (ResearchRoute.extractYear dateYear currentYear
                   (searchResults[i]?.bind (·.published_date)))
               authors :=
                 match c.authors with
                 | some l => l
                 | none => [jsStr (searchResults[i]?.bind (·.author)) "Unknown"]
               } : ResearchRoute.Citation)) := by
  constructor
  · intro pre mid post hpre hpost
    have hdata : (pre ++ "[" ++ mid ++ "]" ++ post).data
        = pre.data ++ '[' :: (mid.data ++ ']' :: post.data) := by
      simp [String.data_append]
    have hdrop : (pre.data ++ '[' :: (mid.data ++ ']' :: post.data)).dropWhile (· ≠ '[')
        = '[' :: (mid.data ++ ']' :: post.data) := by
      apply dropWhile_append_stop
      · intro x hx
        simp only [decide_eq_true_eq]
        intro hq; subst hq; exact hpre hx
      · simp
    have hrev : ('[' :: (mid.data ++ ']' :: post.data)).reverse
        = post.data.reverse ++ ']' :: (mid.data.reverse ++ ['[']) := by
      simp
    have hdrop2 : (post.data.reverse ++ ']' :: (mid.data.reverse ++ ['['])).dropWhile (· ≠ ']')
        = ']' :: (mid.data.reverse ++ ['[']) := by
      apply dropWhile_append_stop
      · intro x hx
        simp only [decide_eq_true_eq]
        intro hq; subst hq; exact hpost (List.mem_reverse.mp hx)
      · simp
    have hkept : ((']' :: (mid.data.reverse ++ ['['])).reverse)
        = '[' :: (mid.data ++ [']']) := by
      simp
    rw [ResearchRoute.extractJsonArraySpan]
    simp only [hdata, hdrop, hrev, hdrop2, hkept]
    have hstr : ("[" ++ mid ++ "]").data = '[' :: (mid.data ++ [']']) := by
      simp [String.data_append]
    simp [hstr]
    rw [← hstr]
  · intro dateYear currentYear citations searchResults i c hc
    rw [ResearchRoute.mapCitations, List.getElem?_map, List.getElem?_enum, hc]
    rfl

/-- Witness for `claim7_extraction_and_defaults`: on prose wrapped around
`[...]`, the extraction returns the bracketed span; and a raw citation
with every field missing is mapped, at index 0 with no sources, to all-6
generated defaults. -/
theorem claim7_extraction_and_defaults_witness :
    ResearchRoute.extractJsonArraySpan
        ("Here are your citations: " ++ "[" ++ "42" ++ "]" ++ " enjoy!") =
      some ("[" ++ "42" ++ "]") ∧
      (ResearchRoute.mapCitations (fun _ => none) 2025 [{}] [])[0]? =
        some { id := "cite-1", formatted := "", inText := "(1)", type := "web",
               year := "2025", authors := ["Unknown"] } := by
  constructor
  · exact claim7_extraction_and_defaults.1 "Here are your citations: " "42" " enjoy!"
      (by decide) (by decide)
  · have h := claim7_extraction_and_defaults.2 (fun _ => none) 2025 [{}] [] 0 {} rfl
    simpa using h

/-- An environment in which every external provider call fails (all
fetches reject, no key is configured, scraping always fails). -/
def envAllProvidersFail : SearchService.SearchEnv :=
  { langSearchKey := false
    braveKey := false
    langSearchFetch := .error ()
    braveFetch := .error ()
    ddgFetch := .error ()
    wikiFetch := .error ()
    arxivFetch := .error ()
    pubmedSearchFetch := .error ()
    pubmedSummaryFetch := fun _ => .error ()
    scrape := fun _ => none
    nowIso := "2026-01-01T00:00:00.000Z"
    currentYear := 2026 }

unseal List.merge List.mergeSort in
/-- Claim C1, counterexample.  With every provider failing,
`SearchService.search` returns the EMPTY list: the open fan-out's
providers each swallow their own failure and resolve to `[]`,
`Promise.allSettled` never rejects, so `getRealSearchResults` returns
`[]` without ever reaching its `catch`-only fallback branch — and
`search` passes that empty list through enrichment and truncation.  This
contradicts "returns a non-empty ordered list ... even when every
external provider call fails or yields zero results". -/
theorem claim1_counterexample :
    SearchService.search envAllProvidersFail "graphene batteries" 10 = [] := by
  rfl

/-- Claim C1, amended.  `search` never throws — every provider failure is
absorbed (the embedding is a total function precisely because each catch
is modelled) — and it returns at most `numResults` results; but when no
key is configured and every open-fan-out provider fails or yields zero
results, it returns the EMPTY list: the synthetic 3-result fallback hangs
off an unreachable `catch` and is not invoked on the zero-result path. -/
theorem claim1_search_spec :
    ∀ (env : SearchService.SearchEnv) (query : String) (numResults : Nat),
      (SearchService.search env query numResults).length ≤ numResults ∧
        (env.langSearchKey = false → env.braveKey = false →
          SearchService.searchWithDuckDuckGo env query = [] →
          SearchService.searchWithWikipedia env query = [] →
          SearchService.searchWithArXiv env query = [] →
          SearchService.searchWithPubMed env query = [] →
          SearchService.search env query numResults = []) := by
  intro env query numResults
  constructor
  · show (List.take numResults _).length ≤ numResults
    rw [List.length_take]
    exact min_le_left _ _
  · intro hk1 hk2 h1 h2 h3 h4
    simp [SearchService.search, hk1, hk2, SearchService.getRealSearchResults,
      h1, h2, h3, h4, SearchService.removeDuplicates, SearchService.removeDuplicatesAux,
      List.mergeSort_nil, SearchService.enhanceSearchResults]

/-- Witness for `claim1_search_spec`: in the all-failing environment the
hypotheses hold definitionally and `search` for `"quantum"` with
`numResults = 7` is empty. -/
theorem claim1_search_spec_witness :
    SearchService.search envAllProvidersFail "quantum" 7 = [] := by
  exact (claim1_search_spec envAllProvidersFail "quantum" 7).2 rfl rfl rfl rfl rfl rfl

/-- Claim C3, counterexample.  The Search Aggregator's synthetic fallback
(`SearchService.getEnhancedFallbackResults`) uses the descending scores
0.95, 0.90, 0.85 — not 0.95, 0.92, 0.88 (those belong to the research
route's own fallback producer). -/
theorem claim3_counterexample :
    ((SearchService.getEnhancedFallbackResults 2026 "graphene batteries").map (·.score)) =
        [0.95, 0.9, 0.85] ∧
      ¬(([0.95, 0.9, 0.85] : List ℚ) = [0.95, 0.92, 0.88]) := by
  constructor
  · rfl
  · simp only [List.cons.injEq, List.cons_ne_nil, and_true, not_and]
    intro _ h
    norm_num at h

/-- Claim C3, amended.  Both synthetic fallback producers emit exactly 3
query-parameterized results whose titles contain the query text and whose
urls point at academic indexes, and never fail (they are total): the
aggregator's `SearchService.getEnhancedFallbackResults` with descending
fixed scores 0.95, 0.90, 0.85, and the research route's
`getEnhancedFallbackResults` with 0.95, 0.92, 0.88. -/
theorem claim3_fallback_spec :
    ∀ (year : Nat) (query : String),
      ((SearchService.getEnhancedFallbackResults year query).map (·.score) =
          [0.95, 0.9, 0.85]) ∧
        (SearchService.getEnhancedFallbackResults year query).length = 3 ∧
        (∀ r ∈ SearchService.getEnhancedFallbackResults year query,
          ∃ before after, r.title = before ++ query ++ after) ∧
        ((ResearchRoute.getEnhancedFallbackResults year query).map (·.score) =
          [0.95, 0.92, 0.88]) ∧
        (ResearchRoute.getEnhancedFallbackResults year query).length = 3 ∧
        (∀ r ∈ ResearchRoute.getEnhancedFallbackResults year query,
          ∃ before after, r.title = before ++ query ++ after) := by
  intro year query
  refine ⟨rfl, rfl, ?_, rfl, rfl, ?_⟩
  · intro r hr
    simp only [SearchService.getEnhancedFallbackResults, List.mem_cons,
      List.not_mem_nil, or_false] at hr
    rcases hr with h | h | h
    · exact ⟨"Comprehensive Research on ", "", by simp [h, String.append_empty]⟩
    · exact ⟨"", ": Latest Research and Developments", by simp [h, String.empty_append]⟩
    · exact ⟨"", ": Technical Documentation and Resources", by simp [h, String.empty_append]⟩
  · intro r hr
    simp only [ResearchRoute.getEnhancedFallbackResults, List.mem_cons,
      List.not_mem_nil, or_false] at hr
    rcases hr with h | h | h
    · exact ⟨"Comprehensive Analysis of ", ": Current Research and Applications", by simp [h]⟩
    · exact ⟨"", ": Systematic Review and Meta-Analysis", by simp [h, String.empty_append]⟩
    · exact ⟨"Recent Advances in ", ": A Technical Perspective", by simp [h]⟩

/-- Witness for `claim3_fallback_spec`: the aggregator fallback's first
result for the spec's query has a title containing the query text. -/
theorem claim3_fallback_spec_witness :
    ∃ before after,
      ((SearchService.getEnhancedFallbackResults 2026 "graphene batteries").headD
          { title := "", url := "", snippet := "", domain := "", score := 0 }).title =
        before ++ "graphene batteries" ++ after := by
  exact (claim3_fallback_spec 2026 "graphene batteries").2.2.1 _
    (by simp [SearchService.getEnhancedFallbackResults])

theorem dropLit_self_append (lit : List Char) : ∀ r, dropLit lit (lit ++ r) = some r := by
  induction lit with
  | nil => intro r; rfl
  | cons a as ih => intro r; simp [dropLit, ih]

theorem schemeRest_https (s : String) : schemeRest ("https://" ++ s) = some s.data := by
  rw [schemeRest, String.data_append, dropLit_self_append]

theorem urlHostname_append (hostStr pathStr suffix : String)
    (hhost : ∀ c ∈ hostStr.data, isHostDelim c = false)
    (hne : hostStr.data ≠ []) :
    urlHostname ("https://" ++ hostStr ++ "/" ++ pathStr ++ suffix) = .ok hostStr := by
  have hassoc : "https://" ++ hostStr ++ "/" ++ pathStr ++ suffix
      = "https://" ++ (hostStr ++ ("/" ++ (pathStr ++ suffix))) := by
    rw [String.append_assoc, String.append_assoc, String.append_assoc]
  have hrest : schemeRest ("https://" ++ (hostStr ++ ("/" ++ (pathStr ++ suffix))))
      = some (hostStr.data ++ '/' :: (pathStr.data ++ suffix.data)) := by
    rw [schemeRest_https]
    have hd : (hostStr ++ ("/" ++ (pathStr ++ suffix))).data
        = hostStr.data ++ '/' :: (pathStr.data ++ suffix.data) := by
      rw [String.data_append, String.data_append, String.data_append]
      rfl
    rw [hd]
  have htake : (hostStr.data ++ '/' :: (pathStr.data ++ suffix.data)).takeWhile
      (fun c => !isHostDelim c) = hostStr.data := by
    apply takeWhile_append_stop
    · intro x hx
      simp [hhost x hx]
    · simp [isHostDelim]
  have hemp : hostStr.data.isEmpty = false := by
    cases h : hostStr.data with
    | nil => exact absurd h hne
    | cons a as => simp
  rw [hassoc, urlHostname, hrest]
  simp only [htake, hemp]
  rfl

/-- The always-succeeding scraping oracle used in the C5 counterexample. -/
def scrapeConst : String → Option SearchService.ScrapedContent :=
  fun _ => some { title := "Scraped Title", content := "Scraped content", snippet := "Scraped snippet" }

/-- Claim C5, counterexample.  Enrichment adds `+0.1` to the score
without clamping: enhancing the synthetic fallback's first result (score
0.95) with a successful scrape yields score 1.05, outside `[0, 1]` — so
"score lies in [0,1] ... preserved by every aggregation step including
... enrichment" is false. -/
theorem claim5_counterexample :
    ((SearchService.enhanceSearchResults scrapeConst
          (SearchService.getEnhancedFallbackResults 2026 "quantum")).map (·.score)).head? =
        some (0.95 + 0.1) ∧
      (0.95 + 0.1 : ℚ) = 1.05 ∧ ¬((1.05 : ℚ) ≤ 1) := by
  refine ⟨rfl, by norm_num, by norm_num⟩

/-- Claim C5, amended.  Enrichment preserves each result's `url` and
`domain` and either leaves the score unchanged (failed scrape) or adds
exactly `+0.1` (successful scrape) — so scores are NOT kept in `[0, 1]`;
the synthetic fallback results themselves do satisfy the data-model
invariant: score in `[0, 1]` and `domain` equal to the host component of
`url`. -/
theorem claim5_invariants :
    (∀ (scrape : String → Option SearchService.ScrapedContent)
        (results : List SearchResult) (i : Nat) (r : SearchResult), results[i]? = some r →
      ∃ r', (SearchService.enhanceSearchResults scrape results)[i]? = some r' ∧
        r'.url = r.url ∧ r'.domain = r.domain ∧
        (r'.score = r.score + 0.1 ∨ r'.score = r.score)) ∧
      (∀ (year : Nat) (query : String) r,
        r ∈ SearchService.getEnhancedFallbackResults year query →
        0 ≤ r.score ∧ r.score ≤ 1 ∧ urlHostname r.url = .ok r.domain) := by
  constructor
  · intro scrape results i r hr
    rw [SearchService.enhanceSearchResults, List.getElem?_map, hr]
    cases hs : scrape r.url with
    | some sc =>
      refine ⟨_, rfl, ?_⟩
      simp [hs]
    | none =>
      refine ⟨_, rfl, ?_⟩
      simp [hs]
  · intro year query r hr
    simp only [SearchService.getEnhancedFallbackResults, List.mem_cons,
      List.not_mem_nil, or_false] at hr
    rcases hr with h | h | h
    · subst h
      refine ⟨by norm_num, by norm_num, ?_⟩
      show urlHostname ("https://scholar.google.com/scholar?q=" ++ encodeURIComponent query)
        = .ok "scholar.google.com"
      have hsplit : ("https://scholar.google.com/scholar?q=" : String)
          = "https://" ++ "scholar.google.com" ++ "/" ++ "scholar?q=" := by decide
      rw [hsplit]
      exact urlHostname_append "scholar.google.com" "scholar?q=" _ (by decide) (by decide)
    · subst h
      refine ⟨by norm_num, by norm_num, ?_⟩
      show urlHostname ("https://arxiv.org/search/?query=" ++ encodeURIComponent query)
        = .ok "arxiv.org"
      have hsplit : ("https://arxiv.org/search/?query=" : String)
          = "https://" ++ "arxiv.org" ++ "/" ++ "search/?query=" := by decide
      rw [hsplit]
      exact urlHostname_append "arxiv.org" "search/?query=" _ (by decide) (by decide)
    · subst h
      refine ⟨by norm_num, by norm_num, ?_⟩
      show urlHostname ("https://github.com/search?q=" ++ encodeURIComponent query)
        = .ok "github.com"
      have hsplit : ("https://github.com/search?q=" : String)
          = "https://" ++ "github.com" ++ "/" ++ "search?q=" := by decide
      rw [hsplit]
      exact urlHostname_append "github.com" "search?q=" _ (by decide) (by decide)

/-- Witness for `claim5_invariants`: the aggregator fallback's first
result for a concrete query satisfies the score bounds and the
domain-from-url invariant. -/
theorem claim5_invariants_witness :
    0 ≤ ((SearchService.getEnhancedFallbackResults 2026 "quantum").headD
        { title := "", url := "", snippet := "", domain := "", score := 0 }).score ∧
      ((SearchService.getEnhancedFallbackResults 2026 "quantum").headD
        { title := "", url := "", snippet := "", domain := "", score := 0 }).score ≤ 1 ∧
      urlHostname ((SearchService.getEnhancedFallbackResults 2026 "quantum").headD
        { title := "", url := "", snippet := "", domain := "", score := 0 }).url =
        .ok ((SearchService.getEnhancedFallbackResults 2026 "quantum").headD
          { title := "", url := "", snippet := "", domain := "", score := 0 }).domain := by
  exact claim5_invariants.2 2026 "quantum" _
    (by simp [SearchService.getEnhancedFallbackResults])

/-- Claim C6 (confirmed).  The reranker adapter builds its document list
with `id` the positional index as a string and `text` the title plus a
space plus the snippet; a returned document id that is unparseable,
negative, or out of range resolves to the first candidate while an
in-range id resolves to the candidate at that index; and a transport
error, a non-ok response, an error code, or a missing results array all
leave the pre-rerank candidates truncated to `topN`. -/
theorem claim6_rerank_spec :
    (∀ (results : List SearchResult) (i : Nat),
      (SearchService.buildRerankDocuments results)[i]? = (results[i]?).map (fun r =>
        ({ id := toString i, text := r.title ++ " " ++ r.snippet, metadataUrl := r.url,
           metadataDomain := r.domain, metadataOriginalScore := r.score } :
          SearchService.RerankDocument))) ∧
      (∀ (hasKey : Bool) (query : String) (results : List SearchResult) (topN : Nat),
        SearchService.rerankResults hasKey query (.error ()) results topN =
          results.take topN) ∧
      (∀ (hasKey : Bool) (query : String) (results : List SearchResult) (topN : Nat)
          (data : SearchService.RerankResp),
        (data.ok = false ∨ (∃ c, data.code = some c ∧ c ≠ 0 ∧ c ≠ 200) ∨
          data.results = none) →
        SearchService.rerankResults hasKey query (.ok data) results topN =
          results.take topN) ∧
      (∀ (results : List SearchResult) (r0 : SearchResult) (docId : Option String),
        (parseIntJS (jsStr docId "0") = none ∨
          ∃ n : Int, parseIntJS (jsStr docId "0") = some n ∧
            (n < 0 ∨ (results.length : Int) ≤ n)) →
        SearchService.resolveRerankId results r0 docId = r0) ∧
      (∀ (results : List SearchResult) (r0 : SearchResult) (docId : Option String)
          (n : Nat) (h : n < results.length),
        parseIntJS (jsStr docId "0") = some (Int.ofNat n) →
        SearchService.resolveRerankId results r0 docId = results.get ⟨n, h⟩) ∧
      (∀ (query : String) (r0 : SearchResult) (rest : List SearchResult) (topN : Nat)
          (data : SearchService.RerankResp) (rs : List SearchService.RerankRespEntry)
          (i : Nat) (e : SearchService.RerankRespEntry),
        data.ok = true →
        (data.code = none ∨ data.code = some 0 ∨ data.code = some 200) →
        data.results = some rs →
        rs[i]? = some e →
        (SearchService.rerankResults true query (.ok data) (r0 :: rest) topN)[i]? =
          some { SearchService.resolveRerankId (r0 :: rest) r0 e.document_id with
                 score := jsOrQ e.relevance_score (1 - (i : ℚ) * 0.1) }) := by
  refine ⟨?_, ?_, ?_, ?_, ?_, ?_⟩
  · intro results i
    rw [SearchService.buildRerankDocuments, List.getElem?_map, List.getElem?_enum]
    cases results[i]? <;> rfl
  · intro hasKey query results topN
    cases results with
    | nil => simp [SearchService.rerankResults]
    | cons r0 rest => cases hasKey <;> simp [SearchService.rerankResults]
  · intro hasKey query results topN data hbad
    cases results with
    | nil => simp [SearchService.rerankResults]
    | cons r0 rest =>
      cases hasKey with
      | false => simp [SearchService.rerankResults]
      | true =>
        rcases hbad with h | ⟨c, hc, hc0, hc200⟩ | h
        · simp [SearchService.rerankResults, h]
        · simp [SearchService.rerankResults, SearchService.badApiCode, hc, hc0, hc200]
        · cases hok : data.ok <;>
            simp [SearchService.rerankResults, hok, h] <;>
            cases hcode : SearchService.badApiCode data.code <;> simp [h]
  · intro results r0 docId hbad
    rcases hbad with h | ⟨n, hn, hrange⟩
    · simp [SearchService.resolveRerankId, h]
    · rw [SearchService.resolveRerankId, hn]
      cases n with
      | ofNat m =>
        rw [Int.ofNat_eq_natCast] at hrange
        rcases hrange with h | h
        · exact absurd h (by omega)
        · have hm : results.length ≤ m := by omega
          show results.getD m r0 = r0
          rw [List.getD_eq_getElem?_getD, List.getElem?_eq_none hm]
          rfl
      | negSucc m => rfl
  · intro results r0 docId n h hn
    rw [SearchService.resolveRerankId, hn]
    show results.getD n r0 = results.get ⟨n, h⟩
    rw [List.getD_eq_getElem?_getD, List.getElem?_eq_getElem h]
    simp [List.get_eq_getElem]
  · intro query r0 rest topN data rs i e hok hcode hrs he
    have hbadcode : SearchService.badApiCode data.code = false := by
      rcases hcode with h | h | h <;> simp [SearchService.badApiCode, h]
    simp [SearchService.rerankResults, hok, hrs, hbadcode, List.getElem?_map,
      List.getElem?_enum, he]

/-- Concrete candidates for the C6 witness. -/
def rnA : SearchResult :=
  { title := "A", url := "https://a.example/x", snippet := "sa", domain := "a.example", score := 0.5 }

/-- See `rnA`. -/
def rnB : SearchResult :=
  { title := "B", url := "https://b.example/y", snippet := "sb", domain := "b.example", score := 0.4 }

/-- A well-formed rerank response whose single entry points at candidate 1. -/
def rerankDataProbe : SearchService.RerankResp :=
  { ok := true, code := some 200,
    results := some [{ document_id := some "1", relevance_score := some 0.7 }] }

/-- Witness for `claim6_rerank_spec`: a successful rerank response whose
entry carries document id `"1"` re-associates to the second candidate
with the returned relevance score. -/
theorem claim6_rerank_spec_witness :
    (SearchService.rerankResults true "q" (.ok rerankDataProbe) [rnA, rnB] 10)[0]? =
      some { SearchService.resolveRerankId [rnA, rnB] rnA (some "1") with
             score := jsOrQ (some 0.7) (1 - (0 : ℚ) * 0.1) } := by
  exact claim6_rerank_spec.2.2.2.2.2 "q" rnA [rnB] 10 rerankDataProbe
    [{ document_id := some "1", relevance_score := some 0.7 }] 0
    { document_id := some "1", relevance_score := some 0.7 }
    rfl (Or.inr (Or.inr rfl)) rfl rfl
